import Mathlib

/-!
Verification of the filter-and-paginate core of the films catalog server.

The repository has two variants of the application, `src/main.py` and
`src/app.py`.  Both define:

* `paginate(items, page, per_page=PER_PAGE)` — Python slicing of a list,
  returning a dict with `items`, `has_prev`, `has_next`, `page`, `offset`;
* three filters written as list comprehensions over the film catalog
  (exact genre match, case-insensitive keyword-in-title, inclusive year
  range);
* a process-wide mutable slot `filtered_films` written by the search
  submit endpoints (and, in `main.py` only, by the genre browse endpoint)
  and read by the view endpoints.

This file embeds those functions, with faithful Python slice semantics
(negative indices count from the end, all bounds clamped), and proves the
claims of the specification about them.
-/

namespace Films

/-- A film record: `title`, `description`, `genre`, `year`, as read from
`films.json`. -/
structure Film where
  title : String
  description : String
  genre : String
  year : Int
deriving Repr, DecidableEq

/-- Resolve one bound of a Python slice `xs[a:b]` against a list of length
`len`: a negative index counts from the end (clamped below at 0), a
non-negative index is clamped above at `len`. -/
def pyBound (len : Nat) (i : Int) : Nat :=
  if i < 0 then ((len : Int) + i).toNat else min i.toNat len

/-- Python slice `xs[a:b]` (step 1): the elements at resolved positions
`[pyBound len a, pyBound len b)`, empty when the resolved start is not
below the resolved end. -/
def pySlice (xs : List α) (a b : Int) : List α :=
  (xs.take (pyBound xs.length b)).drop (pyBound xs.length a)

/-- The page size constant `PER_PAGE = 10` of both variants. -/
def PER_PAGE : Int := 10

/-- The dict returned by `paginate`: fields `items`, `has_prev`,
`has_next`, `page`, `offset`. -/
structure PageResult (α : Type) where
  items : List α
  has_prev : Bool
  has_next : Bool
  page : Int
  offset : Int
deriving Repr, DecidableEq

/-- Function `paginate(items, page, per_page)` from `src/main.py` lines 56–79 and
`src/app.py` lines 31–46 (the two bodies are identical):
`total = len(items)`, `start = (page - 1) * per_page`,
`end = start + per_page`, `sliced = items[start:end]`, returning
`{"items": sliced, "has_prev": page > 1, "has_next": end < total,
"page": page, "offset": start}`. -/
def paginate (items : List α) (page : Int) (per_page : Int) : PageResult α :=
  let total : Int := items.length
  let start := (page - 1) * per_page
  let e := start + per_page
  let sliced := pySlice items start e
  ⟨sliced, decide (page > 1), decide (e < total), page, start⟩

/-- Membership test `a = b` for list elements, as Python `==` on
characters of a string. -/
def elemEq [DecidableEq α] (a b : α) : Bool :=
  decide (a = b)

/-- Whether `needle` begins `hay` (helper for the Python substring test `in`). -/
def beginsWith [DecidableEq α] : List α → List α → Bool
  | [], _ => true
  | _ :: _, [] => false
  | a :: needle, b :: hay => elemEq a b && beginsWith needle hay

/-- The Python test `needle in hay` on strings, on the character lists:
`needle` occurs contiguously somewhere in `hay` (the empty needle always
occurs). -/
def hasSub [DecidableEq α] (needle : List α) : List α → Bool
  | [] => beginsWith needle []
  | b :: hay => beginsWith needle (b :: hay) || hasSub needle hay

/-- The genre filter comprehension of `films_by_genre`
(`src/main.py` line 127, `src/app.py` line 80):
`[f for f in films if f["genre"] == genre]`. -/
def genreFilter (films : List Film) (genre : String) : List Film :=
  films.filter (fun f => elemEq f.genre genre)

/-- The Unicode lowercase mapping of Python `str.lower()` for one
character, embedded on the ASCII letters and the Latin-1 letters
À–Þ (plus Ÿ, the uppercase image of ÿ); characters outside the
modelled ranges are left unchanged.  Faithful to `UnicodeData.txt`
on the modelled ranges: in particular lower(ß) = ß. -/
def pyCharLower (c : Char) : Char :=
  if c.toNat ≥ 65 ∧ c.toNat ≤ 90 then Char.ofNat (c.toNat + 32)
  else if c.toNat ≥ 192 ∧ c.toNat ≤ 222 ∧ c.toNat ≠ 215 then Char.ofNat (c.toNat + 32)
  else if c.toNat = 376 then Char.ofNat 255
  else c

/-- The Unicode uppercase mapping of Python `str.upper()` for one
character (full case mapping, so a character may map to several),
embedded on the ASCII letters and the Latin-1 letters à–ÿ;
characters outside the modelled ranges are left unchanged.  Faithful
to Python on the modelled ranges: upper(ß) = "SS" and upper(ÿ) = Ÿ. -/
def pyCharUpper (c : Char) : List Char :=
  if c.toNat ≥ 97 ∧ c.toNat ≤ 122 then [Char.ofNat (c.toNat - 32)]
  else if c.toNat = 223 then ['S', 'S']
  else if c.toNat ≥ 224 ∧ c.toNat ≤ 254 ∧ c.toNat ≠ 247 then [Char.ofNat (c.toNat - 32)]
  else if c.toNat = 255 then [Char.ofNat 376]
  else [c]

/-- Python `s.lower()`: per-character Unicode lowercasing. -/
def pyLower (s : String) : String :=
  ⟨s.data.map pyCharLower⟩

/-- Python `s.upper()`: per-character Unicode uppercasing (a character
may expand, e.g. ß to SS). -/
def pyUpper (s : String) : String :=
  ⟨(s.data.map pyCharUpper).flatten⟩

/-- The keyword filter of `keyword_search` (`src/main.py` lines 153–157,
`src/app.py` lines 120–125): `kw_lower = keyword.lower()` then
`[f for f in films if kw_lower in f["title"].lower()]`. -/
def keywordFilter (films : List Film) (keyword : String) : List Film :=
  let kw_lower := pyLower keyword
  films.filter (fun f => hasSub kw_lower.data (pyLower f.title).data)

/-- The year filter of `year_form_submit` (`src/main.py` line 193,
`src/app.py` lines 152–155):
`[f for f in films if year_from <= f["year"] <= year_to]`. -/
def yearFilter (films : List Film) (year_from year_to : Int) : List Film :=
  films.filter (fun f => decide (year_from ≤ f.year) && decide (f.year ≤ year_to))

/-- The process-wide mutable state of the server: the single
`filtered_films` slot (`src/main.py` line 28, `src/app.py` line 19). -/
structure ServerState where
  filtered_films : List Film
deriving Repr, DecidableEq

namespace MainPy

/-- Endpoint `GET /genres/{genre}` in `src/main.py` lines 115–143: filters the
catalog by genre, OVERWRITES the global `filtered_films` slot with the
filtered list, and renders the paginated result. Returns the rendered
page together with the new state. -/
def films_by_genre (films : List Film) (genre : String) (page : Int)
    (_s : ServerState) : PageResult Film × ServerState :=
  let filtered := genreFilter films genre
  (paginate filtered page PER_PAGE, ⟨filtered⟩)

/-- Endpoint `POST /search/keyword` in `src/main.py` lines 146–159: stores the
keyword-filtered list in the global slot and redirects (no page body). -/
def keyword_search (films : List Film) (keyword : String)
    (_s : ServerState) : ServerState :=
  ⟨keywordFilter films keyword⟩

/-- Endpoint `GET /search/keyword` in `src/main.py` lines 162–181: paginates the
current slot contents; the state is not modified. -/
def keyword_form (page : Int) (s : ServerState) : PageResult Film :=
  paginate s.filtered_films page PER_PAGE

/-- Endpoint `POST /search/year` in `src/main.py` lines 184–195: stores the
year-filtered list in the global slot and redirects. -/
def year_form_submit (films : List Film) (year_from year_to : Int)
    (_s : ServerState) : ServerState :=
  ⟨yearFilter films year_from year_to⟩

/-- Endpoint `GET /search/year` in `src/main.py` lines 198–216: paginates the
current slot contents; the state is not modified. -/
def year_search (page : Int) (s : ServerState) : PageResult Film :=
  paginate s.filtered_films page PER_PAGE

end MainPy

namespace AppPy

/-- Endpoint `GET /genres/{genre}` in `src/app.py` lines 76–96: filters the catalog
by genre into a LOCAL variable and renders the paginated result; the
global slot is left unchanged. -/
def films_by_genre (films : List Film) (genre : String) (page : Int)
    (s : ServerState) : PageResult Film × ServerState :=
  let filtered := genreFilter films genre
  (paginate filtered page PER_PAGE, s)

/-- Endpoint `POST /search/keyword` in `src/app.py` lines 112–141: filters into a
local variable and renders directly; the global slot is left unchanged. -/
def keyword_search (films : List Film) (keyword : String) (page : Int)
    (s : ServerState) : PageResult Film × ServerState :=
  (paginate (keywordFilter films keyword) page PER_PAGE, s)

/-- Endpoint `POST /search/year` in `src/app.py` lines 145–156: stores the
year-filtered list in the global slot and redirects. -/
def year_form_submit (films : List Film) (year_from year_to : Int)
    (_s : ServerState) : ServerState :=
  ⟨yearFilter films year_from year_to⟩

/-- Endpoint `GET /search/year` in `src/app.py` lines 159–174: paginates the
current slot contents; the state is not modified. -/
def year_search (page : Int) (s : ServerState) : PageResult Film :=
  paginate s.filtered_films page PER_PAGE

end AppPy

/-- A one-film demonstration catalog used to exhibit the interleaving
effect of the shared `filtered_films` slot. -/
def demoFilms : List Film :=
  [⟨"A", "", "Drama", 2000⟩]

/-! ### Helper lemmas about Python slices and `paginate` -/

theorem pyBound_of_nonneg (len : Nat) (i : Int) (h : 0 ≤ i) :
    pyBound len i = min i.toNat len := by
  simp [pyBound, Int.not_lt.mpr h]

theorem pyBound_of_neg (len : Nat) (i : Int) (h : i < 0) :
    pyBound len i = ((len : Int) + i).toNat := by
  simp [pyBound, h]

theorem length_pySlice (xs : List α) (a b : Int) :
    (pySlice xs a b).length
      = min (pyBound xs.length b) xs.length - pyBound xs.length a := by
  simp [pySlice]

theorem take_min_drop_min (xs : List α) (s t : Nat) :
    (xs.take (min t xs.length)).drop (min s xs.length) = (xs.take t).drop s := by
  have h1 : xs.take (min t xs.length) = xs.take t := by
    rw [← List.take_take, List.take_length]
  rw [h1]
  rcases Nat.le_total s xs.length with h | h
  · rw [Nat.min_eq_left h]
  · rw [Nat.min_eq_right h]
    rw [List.drop_eq_nil_of_le, List.drop_eq_nil_of_le]
    · calc (xs.take t).length ≤ xs.length := by
            simp [List.length_take, Nat.min_le_right]
        _ ≤ s := h
    · simp [List.length_take, Nat.min_le_right]

theorem take_drop_of_le (xs : List α) (s t : Nat) (h : s ≤ t) :
    (xs.take t).drop s = (xs.drop s).take (t - s) := by
  have hst : s + (t - s) = t := by omega
  rw [List.take_drop, hst]

theorem pySlice_of_nonneg (xs : List α) (a b : Int) (ha : 0 ≤ a) (hab : a ≤ b) :
    pySlice xs a b = (xs.drop a.toNat).take (b.toNat - a.toNat) := by
  unfold pySlice
  rw [pyBound_of_nonneg _ _ ha, pyBound_of_nonneg _ _ (le_trans ha hab)]
  rw [take_min_drop_min, take_drop_of_le]
  omega

theorem paginate_items_of_pos (S : List α) (page p : Int) (h1 : 1 ≤ page) (hp : 0 < p) :
    (paginate S page p).items = (S.drop ((page - 1) * p).toNat).take p.toNat := by
  have hs : 0 ≤ (page - 1) * p := mul_nonneg (by omega) (by omega)
  show pySlice S ((page - 1) * p) ((page - 1) * p + p) = _
  rw [pySlice_of_nonneg _ _ _ hs (by omega)]
  congr 1
  generalize (page - 1) * p = a at hs ⊢
  omega

theorem slices_reconstruct (p : Nat) (hp : 0 < p) :
    ∀ (n : Nat) (S : List α), S.length ≤ n * p →
      (List.range n).flatMap (fun i => (S.drop (i * p)).take p) = S := by
  intro n
  induction n with
  | zero =>
      intro S h
      have hS : S = [] := List.length_eq_zero.mp (by omega)
      subst hS
      rfl
  | succ n ih =>
      intro S h
      rw [List.range_succ_eq_map, List.flatMap_cons, List.flatMap_map]
      have hcong :
          (List.range n).flatMap (fun i => (S.drop (Nat.succ i * p)).take p)
            = (List.range n).flatMap (fun i => ((S.drop p).drop (i * p)).take p) := by
        unfold List.flatMap
        congr 1
        apply List.map_congr_left
        intro i _
        rw [List.drop_drop]
        congr 2
        calc Nat.succ i * p = i * p + p := Nat.succ_mul i p
          _ = p + i * p := Nat.add_comm _ _
      have h' : S.length ≤ n * p + p := by
        calc S.length ≤ (n + 1) * p := h
          _ = n * p + p := Nat.succ_mul n p
      show (S.drop (0 * p)).take p ++ _ = S
      rw [hcong, ih (S.drop p) (by simp [List.length_drop]; omega)]
      simp [List.take_append_drop]

/-! ### Case folding: `lower(upper(s)) = lower(s)` for ASCII `s` -/

theorem char_toNat_ofNat {n : Nat} (h : n < 55296) : (Char.ofNat n).toNat = n := by
  rw [Char.ofNat, dif_pos (Or.inl h)]
  rfl

theorem pyCharLower_of_upper_ascii (c : Char) (h : c.toNat < 128) :
    (pyCharUpper c).map pyCharLower = [pyCharLower c] := by
  by_cases h1 : c.toNat ≥ 97 ∧ c.toNat ≤ 122
  · have hvu : (Char.ofNat (c.toNat - 32)).toNat = c.toNat - 32 :=
      char_toNat_ofNat (by omega)
    have hupper : pyCharUpper c = [Char.ofNat (c.toNat - 32)] := by
      simp only [pyCharUpper]
      rw [if_pos h1]
    have hlow1 : pyCharLower (Char.ofNat (c.toNat - 32)) = c := by
      simp only [pyCharLower]
      rw [if_pos (by constructor <;> omega :
            (Char.ofNat (c.toNat - 32)).toNat ≥ 65
              ∧ (Char.ofNat (c.toNat - 32)).toNat ≤ 90)]
      rw [hvu]
      have h32 : c.toNat - 32 + 32 = c.toNat := by omega
      rw [h32, Char.ofNat_toNat]
    have hlow2 : pyCharLower c = c := by
      simp only [pyCharLower]
      rw [if_neg (by omega), if_neg (by omega), if_neg (by omega)]
    rw [hupper, List.map_cons, List.map_nil, hlow1, hlow2]
  · have hupper : pyCharUpper c = [c] := by
      simp only [pyCharUpper]
      rw [if_neg h1, if_neg (by omega), if_neg (by omega), if_neg (by omega)]
    rw [hupper, List.map_cons, List.map_nil]

theorem map_lower_flatten_upper (l : List Char) (hl : ∀ c ∈ l, c.toNat < 128) :
    ((l.map pyCharUpper).flatten).map pyCharLower = l.map pyCharLower := by
  induction l with
  | nil => rfl
  | cons c cs ih =>
      simp only [List.map_cons, List.flatten_cons, List.map_append]
      rw [pyCharLower_of_upper_ascii c (hl c (by simp))]
      rw [ih (fun x hx => hl x (by simp [hx]))]
      rfl

theorem pyLower_pyUpper_ascii (k : String) (hk : ∀ c ∈ k.data, c.toNat < 128) :
    pyLower (pyUpper k) = pyLower k := by
  show (⟨((k.data.map pyCharUpper).flatten).map pyCharLower⟩ : String)
      = ⟨k.data.map pyCharLower⟩
  rw [map_lower_flatten_upper k.data hk]

/-! ### `hasSub` is exactly substring occurrence -/

theorem beginsWith_iff [DecidableEq α] (needle hay : List α) :
    beginsWith needle hay = true ↔ ∃ post, hay = needle ++ post := by
  induction needle generalizing hay with
  | nil =>
      constructor
      · intro _
        exact ⟨hay, rfl⟩
      · intro _
        rfl
  | cons a as ih =>
      cases hay with
      | nil =>
          simp [beginsWith]
      | cons b bs =>
          simp only [beginsWith, elemEq, Bool.and_eq_true, decide_eq_true_eq, ih]
          constructor
          · rintro ⟨rfl, post, rfl⟩
            exact ⟨post, rfl⟩
          · rintro ⟨post, hpost⟩
            injection hpost with h1 h2
            exact ⟨h1.symm, post, h2⟩

theorem hasSub_iff [DecidableEq α] (needle hay : List α) :
    hasSub needle hay = true ↔ ∃ pre post, hay = pre ++ needle ++ post := by
  induction hay with
  | nil =>
      show beginsWith needle [] = true ↔ _
      rw [beginsWith_iff]
      constructor
      · rintro ⟨post, hpost⟩
        exact ⟨[], post, hpost⟩
      · rintro ⟨pre, post, hpost⟩
        refine ⟨post, ?_⟩
        cases pre with
        | nil => simpa using hpost
        | cons x xs => simp at hpost
  | cons b bs ih =>
      show (beginsWith needle (b :: bs) || hasSub needle bs) = true ↔ _
      rw [Bool.or_eq_true, beginsWith_iff, ih]
      constructor
      · rintro (⟨post, hpost⟩ | ⟨pre, post, hpost⟩)
        · exact ⟨[], post, by simpa using hpost⟩
        · exact ⟨b :: pre, post, by simp [hpost]⟩
      · rintro ⟨pre, post, hpost⟩
        cases pre with
        | nil =>
            left
            exact ⟨post, by simpa using hpost⟩
        | cons x xs =>
            right
            injection hpost with h1 h2
            exact ⟨xs, post, h2⟩

/-! ### Claim theorems -/

/-- C1: for every sequence `S`, every positive `page` and every positive
`pageSize`, `paginate S page pageSize` has offset `(page−1)×pageSize`,
items equal to the elements of `S` at positions
`[offset, offset+pageSize)` clamped to the bounds of `S` (empty when
`offset ≥ length S`), `has_prev = (page > 1)`, and
`has_next = (offset + pageSize < length S)`. -/
theorem C1_paginate_fields (S : List α) (page p : Int)
    (hpage : 0 < page) (hp : 0 < p) :
    (paginate S page p).offset = (page - 1) * p
    ∧ (paginate S page p).items
        = (S.drop ((page - 1) * p).toNat).take p.toNat
    ∧ ((S.length : Int) ≤ (page - 1) * p → (paginate S page p).items = [])
    ∧ (paginate S page p).has_prev = decide (page > 1)
    ∧ (paginate S page p).has_next
        = decide ((page - 1) * p + p < (S.length : Int)) := by
  refine ⟨rfl, paginate_items_of_pos S page p (by omega) hp, ?_, rfl, rfl⟩
  intro hlen
  rw [paginate_items_of_pos S page p (by omega) hp]
  have hd : S.length ≤ ((page - 1) * p).toNat := by
    generalize (page - 1) * p = a at hlen ⊢
    omega
  rw [List.drop_eq_nil_of_le hd]
  simp

theorem C1_witness :
    (0 : Int) < 3 ∧ (0 : Int) < 2
    ∧ (paginate [10, 20, 30, 40, 50] (3 : Int) 2).offset = (3 - 1) * 2
    ∧ (paginate [10, 20, 30, 40, 50] (3 : Int) 2).items
        = ([10, 20, 30, 40, 50].drop (((3 : Int) - 1) * 2).toNat).take (2 : Int).toNat :=
  ⟨by decide, by decide,
   (C1_paginate_fields [10, 20, 30, 40, 50] 3 2 (by decide) (by decide)).1,
   (C1_paginate_fields [10, 20, 30, 40, 50] 3 2 (by decide) (by decide)).2.1⟩

/-- C2: for every sequence `S` and page size `p > 0`, concatenating the
items of pages `1, 2, …, n` (where `n` is large enough that page `n+1`
is the first page with empty items, i.e. `length S ≤ n*p`) reconstructs
`S` exactly, and page `n+1` is indeed empty. -/
theorem C2_concat_pages_reconstruct (S : List α) (p n : Nat)
    (hp : 0 < p) (hn : S.length ≤ n * p) :
    (List.range n).flatMap
        (fun i => (paginate S ((i : Int) + 1) (p : Int)).items) = S
    ∧ (paginate S ((n : Int) + 1) (p : Int)).items = [] := by
  constructor
  · have hmap : (List.range n).flatMap
        (fun i => (paginate S ((i : Int) + 1) (p : Int)).items)
        = (List.range n).flatMap (fun i => (S.drop (i * p)).take p) := by
      unfold List.flatMap
      congr 1
      apply List.map_congr_left
      intro i _
      rw [paginate_items_of_pos S ((i : Int) + 1) (p : Int) (by omega) (by exact_mod_cast hp)]
      have h1 : ((i : Int) + 1 - 1) * (p : Int) = ((i * p : Nat) : Int) := by
        push_cast
        ring
      rw [h1, Int.toNat_ofNat, Int.toNat_ofNat]
    rw [hmap]
    exact slices_reconstruct p hp n S hn
  · rw [paginate_items_of_pos S ((n : Int) + 1) (p : Int) (by omega) (by exact_mod_cast hp)]
    have h1 : ((n : Int) + 1 - 1) * (p : Int) = ((n * p : Nat) : Int) := by
      push_cast
      ring
    rw [h1, Int.toNat_ofNat, Int.toNat_ofNat, List.drop_eq_nil_of_le hn]
    simp

theorem C2_witness :
    0 < 2 ∧ ([1, 2, 3, 4, 5] : List Nat).length ≤ 3 * 2
    ∧ (List.range 3).flatMap
        (fun i => (paginate [1, 2, 3, 4, 5] ((i : Int) + 1) ((2 : Nat) : Int)).items)
        = [1, 2, 3, 4, 5] :=
  ⟨by decide, by decide,
   (C2_concat_pages_reconstruct [1, 2, 3, 4, 5] 2 3 (by decide) (by decide)).1⟩

/-- C8: for every sequence `S`, page size `p > 0` and page number `n ≥ 1`,
`paginate S n p` has `has_next = true` exactly when `n*p < length S`
(equivalently, `has_next` is false exactly on the last non-empty page and
on every page beyond it). -/
theorem C8_hasNext_iff (S : List α) (n p : Int) (hn : 1 ≤ n) (hp : 0 < p) :
    ((paginate S n p).has_next = true ↔ n * p < (S.length : Int)) := by
  show decide ((n - 1) * p + p < (S.length : Int)) = true ↔ _
  have he : (n - 1) * p + p = n * p := by ring
  rw [he, decide_eq_true_iff]

theorem C8_witness :
    (1 : Int) ≤ 2 ∧ (0 : Int) < 2
    ∧ ((paginate [10, 20, 30, 40, 50] (2 : Int) 2).has_next = true
        ↔ (2 : Int) * 2 < (([10, 20, 30, 40, 50] : List Nat).length : Int)) :=
  ⟨by decide, by decide,
   C8_hasNext_iff [10, 20, 30, 40, 50] 2 2 (by decide) (by decide)⟩

/-- C9: for `page = 0` the items are always empty and the offset is `−p`;
for `page ≤ −1`, whenever `(1−page)*p ≤ length S` the items slice is
NON-empty (drawn from positions counted backward from the end); in the
concrete example `length S = 25`, `page = −1`, `p = 10` the items are the
elements at positions 5 through 14 and the offset is `−20`. -/
theorem C9_nonpositive_pages (S : List α) (p : Int) (hp : 0 < p) :
    ((paginate S 0 p).items = [] ∧ (paginate S 0 p).offset = -p)
    ∧ (∀ page : Int, page ≤ -1 → (1 - page) * p ≤ (S.length : Int) →
        (paginate S page p).items ≠ [])
    ∧ (paginate (List.range 25) (-1) 10).items = ((List.range 25).drop 5).take 10
    ∧ (paginate (List.range 25) (-1) 10).offset = -20 := by
  refine ⟨⟨?_, ?_⟩, ?_, by decide, by decide⟩
  · show pySlice S ((0 - 1) * p) ((0 - 1) * p + p) = []
    have h0 : (0 - 1) * p + p = 0 := by ring
    rw [h0]
    unfold pySlice
    rw [pyBound_of_nonneg _ _ le_rfl]
    simp
  · show (0 - 1) * p = -p
    ring
  · intro page hpage hlen
    have hstart : (page - 1) * p < 0 := by nlinarith
    have hend : (page - 1) * p + p < 0 := by nlinarith
    have hlen' : (0 : Int) ≤ (S.length : Int) + (page - 1) * p := by nlinarith
    have hpos : 0 < (paginate S page p).items.length := by
      have hitems : (paginate S page p).items
          = pySlice S ((page - 1) * p) ((page - 1) * p + p) := rfl
      rw [hitems, length_pySlice, pyBound_of_neg _ _ hstart, pyBound_of_neg _ _ hend]
      generalize (page - 1) * p = a at hstart hend hlen' ⊢
      omega
    exact List.length_pos.mp hpos

theorem C9_witness :
    (0 : Int) < 10
    ∧ (paginate ([0, 1, 2] : List Nat) (0 : Int) 10).items = []
    ∧ (-1 : Int) ≤ -1
    ∧ (1 - (-1 : Int)) * 10 ≤ ((List.range 25).length : Int)
    ∧ (paginate (List.range 25) (-1 : Int) 10).items ≠ [] :=
  ⟨by decide, (C9_nonpositive_pages [0, 1, 2] 10 (by decide)).1.1,
   by decide, by decide,
   (C9_nonpositive_pages (List.range 25) 10 (by decide)).2.1 (-1) (by decide) (by decide)⟩

/-- C3: a year-range search submit (which stores the filtered list in the
shared slot) followed by a view-results request for any positive page `pg`,
with no intervening submit, yields exactly
`paginate (yearFilter catalog yf yt) pg PER_PAGE`, in both variants. -/
theorem C3_submit_then_view (films : List Film) (yf yt : Int) (pg : Int)
    (s : ServerState) (hpg : 0 < pg) :
    MainPy.year_search pg (MainPy.year_form_submit films yf yt s)
      = paginate (yearFilter films yf yt) pg PER_PAGE
    ∧ AppPy.year_search pg (AppPy.year_form_submit films yf yt s)
      = paginate (yearFilter films yf yt) pg PER_PAGE :=
  ⟨rfl, rfl⟩

theorem C3_witness :
    (0 : Int) < 1
    ∧ MainPy.year_search 1 (MainPy.year_form_submit demoFilms 1990 2010 ⟨[]⟩)
        = paginate (yearFilter demoFilms 1990 2010) 1 PER_PAGE :=
  ⟨by decide, (C3_submit_then_view demoFilms 1990 2010 1 ⟨[]⟩ (by decide)).1⟩

/-- C4: every film that the genre filter keeps has a genre field exactly
(case-sensitively) equal to the requested genre; the result is a
subsequence of the catalog (so relative order is preserved); and every
matching film of the catalog is kept. -/
theorem C4_genre_exact_match (C : List Film) (g : String) :
    (∀ f ∈ genreFilter C g, f.genre = g)
    ∧ List.Sublist (genreFilter C g) C
    ∧ (∀ f ∈ C, f.genre = g → f ∈ genreFilter C g) := by
  refine ⟨?_, List.filter_sublist C, ?_⟩
  · intro f hf
    have h := (List.mem_filter.mp hf).2
    simpa [elemEq] using h
  · intro f hf hg
    apply List.mem_filter.mpr
    exact ⟨hf, by simp [elemEq, hg]⟩

theorem C4_witness :
    (⟨"A", "", "Drama", 2000⟩ : Film) ∈ genreFilter demoFilms "Drama"
    ∧ (⟨"A", "", "Drama", 2000⟩ : Film).genre = "Drama" :=
  ⟨(C4_genre_exact_match demoFilms "Drama").2.2 ⟨"A", "", "Drama", 2000⟩
      (by decide) (by decide),
   (C4_genre_exact_match demoFilms "Drama").1 ⟨"A", "", "Drama", 2000⟩
      (by decide)⟩

/-- C5 as stated is false of the program: Python case folding is
Unicode-wide, and upper(ß) = "SS" while lower(ß) = ß, so with the
catalog `[Film "Straße"]` the keyword `"ß"` keeps the film
(ß occurs in lower("Straße") = "straße") while its uppercased form
`"SS"` does not ("ss" does not occur in "straße"). -/
theorem C5_upper_counterexample :
    keywordFilter [⟨"Straße", "", "Drama", 2000⟩] "ß"
      ≠ keywordFilter [⟨"Straße", "", "Drama", 2000⟩] (pyUpper "ß") := by
  decide

/-- C5 (amended): for every catalog `C` and every keyword `k` consisting
of ASCII characters, filtering with `k` and with `upper(k)` give the same
result, and both keep exactly the films whose lowercased title contains
the lowercased keyword as a contiguous substring.  (The ASCII restriction
is forced by the counterexample: Python maps ß to SS under upper.) -/
theorem C5_keyword_ascii_case_insensitive (C : List Film) (k : String)
    (hk : ∀ c ∈ k.data, c.toNat < 128) :
    keywordFilter C k = keywordFilter C (pyUpper k)
    ∧ (∀ f, f ∈ keywordFilter C k ↔
        f ∈ C ∧ ∃ pre post, (pyLower f.title).data = pre ++ (pyLower k).data ++ post)
    ∧ (∀ f, f ∈ keywordFilter C (pyUpper k) ↔
        f ∈ C ∧ ∃ pre post, (pyLower f.title).data = pre ++ (pyLower k).data ++ post) := by
  have hku : pyLower (pyUpper k) = pyLower k := pyLower_pyUpper_ascii k hk
  have hmem : ∀ f, f ∈ keywordFilter C k ↔
      f ∈ C ∧ ∃ pre post, (pyLower f.title).data = pre ++ (pyLower k).data ++ post := by
    intro f
    simp only [keywordFilter, List.mem_filter, hasSub_iff]
  have heq : keywordFilter C k = keywordFilter C (pyUpper k) := by
    simp only [keywordFilter, hku]
  refine ⟨heq, hmem, ?_⟩
  intro f
  rw [← heq]
  exact hmem f

theorem C5_witness :
    (∀ c ∈ "a".data, c.toNat < 128)
    ∧ keywordFilter demoFilms "a" = keywordFilter demoFilms (pyUpper "a")
    ∧ (⟨"A", "", "Drama", 2000⟩ : Film) ∈ keywordFilter demoFilms "a" :=
  ⟨by decide,
   (C5_keyword_ascii_case_insensitive demoFilms "a" (by decide)).1,
   ((C5_keyword_ascii_case_insensitive demoFilms "a" (by decide)).2.1
      ⟨"A", "", "Drama", 2000⟩).mpr ⟨by decide, [], [], by decide⟩⟩

/-- C6: when `yf > yt` the year-range filter returns the empty list (and
raises no error); in general a film is kept iff `yf ≤ year ≤ yt`,
inclusive on both ends. -/
theorem C6_year_range_inclusive (C : List Film) (yf yt : Int) :
    (yt < yf → yearFilter C yf yt = [])
    ∧ (∀ f, f ∈ yearFilter C yf yt ↔ f ∈ C ∧ yf ≤ f.year ∧ f.year ≤ yt) := by
  constructor
  · intro hlt
    apply List.filter_eq_nil_iff.mpr
    intro f _
    simp only [Bool.and_eq_true, decide_eq_true_eq, not_and]
    intro h1 h2
    omega
  · intro f
    simp [yearFilter, List.mem_filter]

theorem C6_witness :
    (2005 : Int) < 2010
    ∧ yearFilter demoFilms 2010 2005 = [] :=
  ⟨by decide, (C6_year_range_inclusive demoFilms 2010 2005).1 (by decide)⟩

/-- C7: degenerate inputs raise no error: every filter applied to the
empty catalog returns the empty list; `paginate [] 1 10` returns
`items = []`, `has_prev = false`, `has_next = false`, `offset = 0`; and a
page number beyond the last page yields a valid result with empty items. -/
theorem C7_degenerate_inputs :
    (∀ g, genreFilter [] g = [])
    ∧ (∀ k, keywordFilter [] k = [])
    ∧ (∀ yf yt, yearFilter [] yf yt = [])
    ∧ paginate ([] : List Film) 1 10 = ⟨[], false, false, 1, 0⟩
    ∧ (∀ (S : List Film) (page p : Int), 1 ≤ page → 0 < p →
        (S.length : Int) ≤ (page - 1) * p → (paginate S page p).items = []) := by
  refine ⟨fun g => rfl, fun k => rfl, fun yf yt => rfl, by decide, ?_⟩
  intro S page p h1 hp hlen
  rw [paginate_items_of_pos S page p h1 hp]
  have hd : S.length ≤ ((page - 1) * p).toNat := by
    generalize (page - 1) * p = a at hlen ⊢
    omega
  rw [List.drop_eq_nil_of_le hd]
  simp

theorem C7_witness :
    (1 : Int) ≤ 2 ∧ (0 : Int) < 3
    ∧ ((([] : List Film).length : Int) ≤ ((2 : Int) - 1) * 3)
    ∧ (paginate ([] : List Film) (2 : Int) 3).items = [] :=
  ⟨by decide, by decide, by decide,
   C7_degenerate_inputs.2.2.2.2 [] 2 3 (by decide) (by decide) (by decide)⟩

/-- C10: in the `src/main.py` variant, the browse-by-genre action
overwrites the process-wide `filtered_films` slot with the genre-filtered
list, so a genre browse occurring between a year-search submit and its
view changes what the view shows (demonstrated on a concrete catalog); in
the `src/app.py` variant the same action leaves the slot unchanged. -/
theorem C10_genre_browse_frame_effect (films : List Film) (g : String)
    (pg pg2 : Int) (s : ServerState) :
    (MainPy.films_by_genre films g pg s).2 = ⟨genreFilter films g⟩
    ∧ (AppPy.films_by_genre films g pg s).2 = s
    ∧ (∀ yf yt, MainPy.year_search pg2
        ((MainPy.films_by_genre films g pg (MainPy.year_form_submit films yf yt s)).2)
        = paginate (genreFilter films g) pg2 PER_PAGE)
    ∧ MainPy.year_search 1
        ((MainPy.films_by_genre demoFilms "Comedy" 1
          (MainPy.year_form_submit demoFilms 2000 2000 ⟨[]⟩)).2)
      ≠ MainPy.year_search 1 (MainPy.year_form_submit demoFilms 2000 2000 ⟨[]⟩) :=
  ⟨rfl, rfl, fun yf yt => rfl, by decide⟩

theorem C10_witness :
    (MainPy.films_by_genre demoFilms "Drama" 1 ⟨[]⟩).2 = ⟨genreFilter demoFilms "Drama"⟩
    ∧ (AppPy.films_by_genre demoFilms "Drama" 1 ⟨[]⟩).2 = (⟨[]⟩ : ServerState) :=
  ⟨(C10_genre_browse_frame_effect demoFilms "Drama" 1 1 ⟨[]⟩).1,
   (C10_genre_browse_frame_effect demoFilms "Drama" 1 1 ⟨[]⟩).2.1⟩

example : paginate [1, 2, 3, 4, 5] 1 2 = ⟨[1, 2], false, true, 1, 0⟩ := by decide
example : paginate [1, 2, 3, 4, 5] 3 2 = ⟨[5], true, false, 3, 4⟩ := by decide
example : paginate [1, 2, 3, 4, 5] 4 2 = ⟨[], true, false, 4, 6⟩ := by decide
example : paginate [1, 2, 3, 4, 5] 0 2 = ⟨[], false, true, 0, -2⟩ := by decide
example :
    (paginate (List.range 25) (-1) 10).items = [5, 6, 7, 8, 9, 10, 11, 12, 13, 14] := by decide
example : hasSub "bc".data "abcd".data = true := by decide
example : hasSub "".data "abcd".data = true := by decide
example : hasSub "ca".data "abcd".data = false := by decide

end Films
